import Mathlib

/-!
Shallow embedding of the solver core of tespy (src/tespy/networks.py):
the Newton update step (solve_control), the range-repair pass
(solve_check_props / solve_check_temperature), the iteration loop
(solve_loop), the degrees-of-freedom check (solve_determination),
fluid-composition initialisation (init_fluids / init_target /
init_source) and connection registration (check_conns).
Machine floats are modelled by rationals; dict state by association
lists; external helpers (property backend, component hooks) are
parameters of the embedded functions.
-/

namespace Tespy

/-- Modelled from the spec: hlp.err, the fixed tolerance ε used by the
solver (the helpers module is not part of src/); a small positive
tolerance, taken here as 10⁻⁶.  None of the settled claims depends on
its exact value, only on 0 < err < 1/2. -/
def err : ℚ := 1 / 1000000

/-- A connection of the network, restricted to the state the solver
core reads and writes: SI values and user-set flags of mass flow,
pressure and enthalpy (networks.py lines 1269-1279), the set flags of
the derived properties and references (solve_determination, lines
1950-1956), and the composition vector: fractions `fvals` and per-fluid
fixed flags `fsets`, both aligned with the network fluid list. -/
structure Conn where
  m : ℚ
  m_set : Bool
  p : ℚ
  p_set : Bool
  h : ℚ
  h_set : Bool
  T_set : Bool
  x_set : Bool
  v_set : Bool
  m_ref : Bool
  p_ref : Bool
  h_ref : Bool
  T_ref : Bool
  balance : Bool
  fvals : List ℚ
  fsets : List Bool
deriving DecidableEq

/-- One fluid fraction in the increment application of solve_control
(networks.py lines 1284-1292): add the increment unless the fraction is
user-fixed, then snap values below err to 0 and values above 1 - err
to 1. -/
def updateFrac (z : ℚ) (set : Bool) (v : ℚ) : ℚ :=
  let v1 := if set then v else v + z
  let v2 := if v1 < err then 0 else v1
  if v2 > 1 - err then 1 else v2

/-- The fluid loop of solve_control (lines 1281-1294): walk the fluid
list (here: the parallel lists of set flags and values), applying
updateFrac with the increment entry at offset base + j. -/
def updateFluids (z : ℕ → ℚ) (base : ℕ) : List Bool → List ℚ → List ℚ
  | s :: ss, v :: vs => updateFrac (z base) s v :: updateFluids z (base + 1) ss vs
  | _, _ => []

/-- The per-connection increment application of solve_control
(networks.py lines 1270-1294) for the connection at position i, with
nv = num_vars = len(fluids) + 3: mass flow and enthalpy get the plain
increment, pressure gets the damped increment
p += dp / max(1, -dp / (0.5 p)), fractions go through updateFluids;
user-set values are skipped. -/
def updateConn (z : ℕ → ℚ) (nv i : ℕ) (c : Conn) : Conn :=
  let dp := z (i * nv + 1)
  { c with
    m := if c.m_set then c.m else c.m + z (i * nv)
    p := if c.p_set then c.p else c.p + dp / max 1 (-dp / (0.5 * c.p))
    h := if c.h_set then c.h else c.h + z (i * nv + 2)
    fvals := updateFluids z (i * nv + 3) c.fsets c.fvals }

/-- The external inputs of the per-connection repair pass: the network
fluid list, the property-backend valid ranges hlp.memorise.vrange
(pmin, pmax, Tmin, Tmax per fluid), the backend functions hlp.h_pT and
hlp.h_mix_pT, the network value ranges p_range_SI / h_range_SI /
T_range_SI, and whether an initialisation file was given. -/
structure SolveCfg where
  fluids : List String
  vrange : String → ℚ × ℚ × ℚ × ℚ
  hpT : ℚ → ℚ → String → ℚ
  hmixpT : Conn → ℚ → ℚ
  p_range : ℚ × ℚ
  h_range : ℚ × ℚ
  T_range : ℚ × ℚ
  init_file : Bool

/-- Modelled from the spec: hlp.single_fluid (helpers module not in
src/) — the composition identifies a single known fluid; here: the
fluid whose fraction exceeds err, provided it is the only such one. -/
def single_fluid (fluids : List String) (fvals : List ℚ) : Option String :=
  match (fluids.zip fvals).filter (fun fx => decide (err < fx.2)) with
  | [fx] => some fx.1
  | _ => none

/-- solve_check_temperature (networks.py lines 1384-1404): pull the
enthalpy of a connection with given temperature back between the
enthalpies of the global temperature range, with 5 % margins. -/
def solve_check_temperature (cfg : SolveCfg) (c : Conn) : Conn :=
  let hmin := cfg.hmixpT c cfg.T_range.1
  let hmax := cfg.hmixpT c cfg.T_range.2
  let h1 := if c.h < hmin then hmin * 1.05 else c.h
  let h2 := if h1 > hmax then hmax * 0.95 else h1
  { c with h := h2 }

/-- The single-known-fluid branch of solve_check_props (networks.py
lines 1349-1365): clamp non-set pressure to 1.1·pmin / 0.9·pmax of the
fluid valid range, then repair non-set enthalpy against
hmin = h_pT(p, 1.01·Tmin) and hmax = h_pT(p, 0.99·Tmax) with factors
1/3, 3 and 0.9. -/
def solve_check_props_single (cfg : SolveCfg) (fl : String) (c : Conn) : Conn :=
  let vr := cfg.vrange fl
  let p1 := if c.p < vr.1 && !c.p_set then vr.1 * 1.1 else c.p
  let p2 := if p1 > vr.2.1 && !c.p_set then vr.2.1 * 0.9 else p1
  let hmin := cfg.hpT p2 (vr.2.2.1 * 1.01) fl
  let hmax := cfg.hpT p2 (vr.2.2.2 * 0.99) fl
  let h1 := if c.h < hmin && !c.h_set then
      (if c.h < 0 then hmin / 3 else hmin * 3) else c.h
  let h2 := if h1 > hmax && !c.h_set then hmax * 0.9 else h1
  { c with p := p2, h := h2 }

/-- The mixture branch of solve_check_props (networks.py lines
1367-1382), active only while iter < 3 with no initialisation file:
clamp non-set pressure/enthalpy to the network value ranges and adjust
the enthalpy of temperature-set connections. -/
def solve_check_props_global (cfg : SolveCfg) (c : Conn) : Conn :=
  let p1 := if c.p ≤ cfg.p_range.1 && !c.p_set then cfg.p_range.1 else c.p
  let p2 := if p1 ≥ cfg.p_range.2 && !c.p_set then cfg.p_range.2 else p1
  let h1 := if c.h < cfg.h_range.1 && !c.h_set then cfg.h_range.1 else c.h
  let h2 := if h1 > cfg.h_range.2 && !c.h_set then cfg.h_range.2 else h1
  let c' := { c with p := p2, h := h2 }
  if c.T_set && !c.h_set && !c.p_set then solve_check_temperature cfg c'
  else c'

/-- solve_check_props (networks.py lines 1334-1382): dispatch on
whether the composition identifies a single known fluid; the network
value ranges are applied only to connections without one (elif). -/
def solve_check_props (cfg : SolveCfg) (iter : ℕ) (c : Conn) : Conn :=
  match single_fluid cfg.fluids c.fvals with
  | some fl => solve_check_props_single cfg fl c
  | none =>
    if iter < 3 && !cfg.init_file then solve_check_props_global cfg c
    else c

/-- The full treatment of one connection inside solve_control
(lines 1270-1297): increment application followed by the repair pass. -/
def solveControlConn (cfg : SolveCfg) (iter : ℕ) (z : ℕ → ℚ) (nv i : ℕ)
    (c : Conn) : Conn :=
  solve_check_props cfg iter (updateConn z nv i c)

/-- A connection with all values zero and all flags clear, used as the
base of the concrete examples. -/
def conn0 : Conn :=
  ⟨0, false, 0, false, 0, false, false, false, false,
   false, false, false, false, false, [], []⟩

theorem updateFrac_cases (z : ℚ) (s : Bool) (v : ℚ) :
    updateFrac z s v = 0 ∨
      (err ≤ updateFrac z s v ∧ updateFrac z s v ≤ 1 - err) ∨
      updateFrac z s v = 1 := by
  unfold updateFrac
  set v1 := if s then v else v + z with hv1
  by_cases h1 : v1 < err
  · simp only [if_pos h1]
    have : ¬((0:ℚ) > 1 - err) := by norm_num [err]
    simp [this]
  · simp only [if_neg h1]
    by_cases h2 : v1 > 1 - err
    · simp [h2]
    · right; left
      simp only [if_neg h2]
      exact ⟨le_of_not_lt h1, le_of_not_lt h2⟩

theorem mem_updateFluids_cases (z : ℕ → ℚ) :
    ∀ (ss : List Bool) (vs : List ℚ) (base : ℕ) (x : ℚ),
      x ∈ updateFluids z base ss vs →
      x = 0 ∨ (err ≤ x ∧ x ≤ 1 - err) ∨ x = 1 := by
  intro ss
  induction ss with
  | nil => intro vs base x hx; simp [updateFluids] at hx
  | cons s ss ih =>
    intro vs base x hx
    cases vs with
    | nil => simp [updateFluids] at hx
    | cons v vs =>
      simp only [updateFluids, List.mem_cons] at hx
      rcases hx with h | h
      · subst h; exact updateFrac_cases _ _ _
      · exact ih vs (base + 1) x h

/-- C1 (counterexample): a non-fixed fraction at value 0 with a zero
increment is snapped to 0 by lines 1289-1292, and 0 does not lie in
the interval [err, 1 - err] the claim asserts. -/
theorem frac_clamp_claim_false :
    (updateConn (fun _ => 0) 4 0
        { conn0 with m_set := true, p := 1, p_set := true, h_set := true,
                     fvals := [0], fsets := [false] }).fvals = [0] ∧
      ¬(err ≤ (0:ℚ) ∧ (0:ℚ) ≤ 1 - err) := by
  constructor
  · norm_num [updateConn, updateFluids, updateFrac, err]
  · norm_num [err]

/-- C1 (amended): after the increment application of solve_control,
every composition fraction of the connection is 0, lies in
[err, 1 - err], or is 1 — values below err are snapped to 0 and values
above 1 - err to 1, not clamped into the interval. -/
theorem frac_clamp_range (z : ℕ → ℚ) (nv i : ℕ) (c : Conn) :
    ∀ x ∈ (updateConn z nv i c).fvals,
      x = 0 ∨ (err ≤ x ∧ x ≤ 1 - err) ∨ x = 1 := by
  intro x hx
  exact mem_updateFluids_cases z c.fsets c.fvals (i * nv + 3) x hx

/-- C1 (witness for the amended theorem). -/
theorem frac_clamp_range_witness :
    (1:ℚ) ∈ (updateConn (fun _ => 1) 4 0
        { conn0 with fvals := [1/2], fsets := [false] }).fvals ∧
      ((1:ℚ) = 0 ∨ (err ≤ (1:ℚ) ∧ (1:ℚ) ≤ 1 - err) ∨ (1:ℚ) = 1) := by
  refine ⟨?_, ?_⟩
  · show (1:ℚ) ∈ updateFluids (fun _ => 1) 3 [false] [1/2]
    have : updateFluids (fun _ => (1:ℚ)) 3 [false] [1/2] = [1] := by
      norm_num [updateFluids, updateFrac, err]
    rw [this]; exact List.mem_singleton.mpr rfl
  · exact frac_clamp_range (fun _ => 1) 4 0
      { conn0 with fvals := [1/2], fsets := [false] } 1
      (by show (1:ℚ) ∈ updateFluids (fun _ => 1) 3 [false] [1/2]
          have : updateFluids (fun _ => (1:ℚ)) 3 [false] [1/2] = [1] := by
            norm_num [updateFluids, updateFrac, err]
          rw [this]; exact List.mem_singleton.mpr rfl)

/-- C2: the damped pressure update of solve_control (lines 1270-1277)
keeps a strictly positive, non-user-fixed pressure strictly positive,
for every increment the linear solve may produce. -/
theorem pressure_update_positive (z : ℕ → ℚ) (nv i : ℕ) (c : Conn)
    (hset : c.p_set = false) (hp : 0 < c.p) :
    0 < (updateConn z nv i c).p := by
  have hform : (updateConn z nv i c).p =
      c.p + z (i * nv + 1) / max 1 (-(z (i * nv + 1)) / (0.5 * c.p)) := by
    simp [updateConn, hset]
  rw [hform]
  set dp := z (i * nv + 1) with hdp
  set r := max 1 (-dp / (0.5 * c.p)) with hr
  have hr1 : (1:ℚ) ≤ r := le_max_left _ _
  have hrpos : (0:ℚ) < r := lt_of_lt_of_le one_pos hr1
  have hhalf : (0:ℚ) < 0.5 * c.p := by
    have : (0.5:ℚ) = 1 / 2 := by norm_num
    rw [this]; positivity
  have hkey : -dp ≤ 0.5 * c.p * r := by
    have h2 : -dp / (0.5 * c.p) ≤ r := le_max_right _ _
    calc -dp = 0.5 * c.p * (-dp / (0.5 * c.p)) := by
          rw [mul_div_cancel₀ _ (ne_of_gt hhalf)]
      _ ≤ 0.5 * c.p * r := mul_le_mul_of_nonneg_left h2 (le_of_lt hhalf)
  have hdiv : -(0.5 * c.p) ≤ dp / r := by
    rw [le_div_iff₀ hrpos]
    nlinarith [hkey]
  linarith [hdiv, hp]

/-- C2 (witness): an adversarial negative increment of magnitude 3,
exceeding twice the current pressure 1, still leaves the updated
pressure strictly positive. -/
theorem pressure_update_positive_witness :
    ({ conn0 with p := 1, m_set := true, h_set := true } : Conn).p_set = false ∧
      (0:ℚ) < ({ conn0 with p := 1, m_set := true, h_set := true } : Conn).p ∧
      (3:ℚ) > 2 * ({ conn0 with p := 1, m_set := true, h_set := true } : Conn).p ∧
      0 < (updateConn (fun _ => -3) 4 0
        { conn0 with p := 1, m_set := true, h_set := true }).p := by
  refine ⟨rfl, by norm_num, by norm_num, ?_⟩
  exact pressure_update_positive (fun _ => -3) 4 0
    { conn0 with p := 1, m_set := true, h_set := true } rfl (by norm_num)

/-- A trivial backend configuration for the concrete examples. -/
def cfg0 : SolveCfg :=
  ⟨[], fun _ => (0, 0, 0, 0), fun _ _ _ => 0, fun _ _ => 0,
   (0, 0), (0, 0), (0, 0), false⟩

theorem solve_check_props_global_fvals (cfg : SolveCfg) (c : Conn) :
    (solve_check_props_global cfg c).fvals = c.fvals := by
  unfold solve_check_props_global solve_check_temperature
  repeat' split
  all_goals rfl

theorem solve_check_props_fvals (cfg : SolveCfg) (iter : ℕ) (c : Conn) :
    (solve_check_props cfg iter c).fvals = c.fvals := by
  unfold solve_check_props
  split
  · rfl
  · split
    · exact solve_check_props_global_fvals cfg c
    · rfl

theorem solve_check_props_global_m (cfg : SolveCfg) (c : Conn) :
    (solve_check_props_global cfg c).m = c.m := by
  unfold solve_check_props_global solve_check_temperature
  repeat' split
  all_goals rfl

theorem solve_check_props_m (cfg : SolveCfg) (iter : ℕ) (c : Conn) :
    (solve_check_props cfg iter c).m = c.m := by
  unfold solve_check_props
  split
  · rfl
  · split
    · exact solve_check_props_global_m cfg c
    · rfl

theorem solve_check_props_p_set (cfg : SolveCfg) (iter : ℕ) (c : Conn)
    (hp : c.p_set = true) : (solve_check_props cfg iter c).p = c.p := by
  unfold solve_check_props
  split
  · simp [solve_check_props_single, hp]
  · split
    · simp [solve_check_props_global, solve_check_temperature, hp]
    · rfl

theorem solve_check_props_h_set (cfg : SolveCfg) (iter : ℕ) (c : Conn)
    (hh : c.h_set = true) : (solve_check_props cfg iter c).h = c.h := by
  unfold solve_check_props
  split
  · simp [solve_check_props_single, hh]
  · split
    · simp [solve_check_props_global, solve_check_temperature, hh]
    · rfl

theorem updateFrac_fixed_stable (z v : ℚ)
    (hv : v = 0 ∨ (err ≤ v ∧ v ≤ 1 - err) ∨ v = 1) :
    updateFrac z true v = v := by
  unfold updateFrac
  simp only [if_true]
  rcases hv with h | h | h
  · subst h; norm_num [err]
  · rw [if_neg (not_lt.mpr h.1), if_neg (not_lt.mpr h.2)]
  · subst h; norm_num [err]

theorem updateFluids_getD (z : ℕ → ℚ) :
    ∀ (ss : List Bool) (vs : List ℚ) (base j : ℕ),
      j < ss.length → ss.length = vs.length →
      (updateFluids z base ss vs).getD j 0 =
        updateFrac (z (base + j)) (ss.getD j false) (vs.getD j 0) := by
  intro ss
  induction ss with
  | nil => intro vs base j hj _; simp at hj
  | cons s ss ih =>
    intro vs base j hj hlen
    cases vs with
    | nil => simp at hlen
    | cons v vs =>
      cases j with
      | zero => simp [updateFluids]
      | succ j =>
        simp only [updateFluids, List.getD_cons_succ]
        rw [ih vs (base + 1) j (by simpa using hj) (by simpa using hlen)]
        have harg : base + 1 + j = base + (j + 1) := by omega
        rw [harg]

/-- A connection whose only fluid fraction is user-fixed at err / 2. -/
def connFixedTiny : Conn :=
  { conn0 with m_set := true, p := 1, p_set := true, h_set := true, fvals := [err / 2], fsets := [true] }

/-- A one-fluid configuration with trivial backend. -/
def cfgWater : SolveCfg := { cfg0 with fluids := ["water"] }

/-- C6 (counterexample): a user-fixed fluid fraction whose set value is
err / 2 is modified by the update step — the snap of lines 1289-1290
runs on fixed fractions too and sets it to 0. -/
theorem fixed_vars_claim_false :
    connFixedTiny.fsets = [true] ∧ connFixedTiny.fvals = [err / 2] ∧
    (solveControlConn cfgWater 5 (fun _ => 0) 4 0 connFixedTiny).fvals = [0] ∧
    (0:ℚ) ≠ err / 2 := by
  refine ⟨rfl, rfl, ?_, by norm_num [err]⟩
  rw [solveControlConn, solve_check_props_fvals]
  norm_num [connFixedTiny, conn0, updateConn, updateFluids, updateFrac, err]

/-- C6 (amended): the update step never modifies a user-fixed mass
flow, pressure or enthalpy, and never modifies a user-fixed fluid
fraction whose set value is 0, 1, or inside [err, 1 - err]; a fixed
fraction strictly inside (0, err) or (1 - err, 1) is snapped to 0
resp. 1 by lines 1289-1292, which run on fixed fractions as well. -/
theorem fixed_vars_preserved (cfg : SolveCfg) (iter : ℕ) (z : ℕ → ℚ)
    (nv i : ℕ) (c : Conn) (hlen : c.fsets.length = c.fvals.length) :
    (c.m_set = true → (solveControlConn cfg iter z nv i c).m = c.m) ∧
    (c.p_set = true → (solveControlConn cfg iter z nv i c).p = c.p) ∧
    (c.h_set = true → (solveControlConn cfg iter z nv i c).h = c.h) ∧
    (∀ j, j < c.fsets.length → c.fsets.getD j false = true →
      (c.fvals.getD j 0 = 0 ∨
        (err ≤ c.fvals.getD j 0 ∧ c.fvals.getD j 0 ≤ 1 - err) ∨
        c.fvals.getD j 0 = 1) →
      (solveControlConn cfg iter z nv i c).fvals.getD j 0 =
        c.fvals.getD j 0) := by
  refine ⟨?_, ?_, ?_, ?_⟩
  · intro hm
    rw [solveControlConn, solve_check_props_m]
    simp [updateConn, hm]
  · intro hp
    have hps : (updateConn z nv i c).p_set = true := by simp [updateConn, hp]
    rw [solveControlConn, solve_check_props_p_set _ _ _ hps]
    simp [updateConn, hp]
  · intro hh
    have hhs : (updateConn z nv i c).h_set = true := by simp [updateConn, hh]
    rw [solveControlConn, solve_check_props_h_set _ _ _ hhs]
    simp [updateConn, hh]
  · intro j hj hset hv
    rw [solveControlConn, solve_check_props_fvals]
    show (updateFluids z (i * nv + 3) c.fsets c.fvals).getD j 0 = _
    rw [updateFluids_getD z c.fsets c.fvals (i * nv + 3) j hj hlen, hset,
      updateFrac_fixed_stable _ _ hv]

/-- A connection with all of mass flow, pressure, enthalpy and its one
fluid fraction user-fixed at ordinary values. -/
def connAllFixed : Conn :=
  { conn0 with m := 2, m_set := true, p := 3, p_set := true, h := 4, h_set := true, fvals := [1/2], fsets := [true] }

/-- C6 (witness for the amended theorem): a connection with fixed mass
flow, pressure, enthalpy and a fixed fraction 1/2 is returned
unchanged in those places by the update step. -/
theorem fixed_vars_preserved_witness :
    (solveControlConn cfg0 0 (fun _ => 7) 4 0 connAllFixed).m = 2 ∧
    (solveControlConn cfg0 0 (fun _ => 7) 4 0 connAllFixed).p = 3 ∧
    (solveControlConn cfg0 0 (fun _ => 7) 4 0 connAllFixed).h = 4 ∧
    (solveControlConn cfg0 0 (fun _ => 7) 4 0 connAllFixed).fvals.getD 0 0
      = 1/2 := by
  have h := fixed_vars_preserved cfg0 0 (fun _ => 7) 4 0 connAllFixed rfl
  refine ⟨h.1 rfl, h.2.1 rfl, h.2.2.1 rfl, ?_⟩
  have h4 := h.2.2.2 0 (by norm_num [connAllFixed]) rfl
    (by right; left; constructor <;> norm_num [connAllFixed, conn0, err])
  simpa [connAllFixed, conn0] using h4

/-- A one-fluid configuration with valid range (1, 10) for pressure,
(300, 500) for temperature, the identity-in-T enthalpy backend, and
network ranges (3, 8) for pressure. -/
def cfgRange : SolveCfg :=
  { fluids := ["water"], vrange := fun _ => (1, 10, 300, 500), hpT := fun _ T _ => T,
    hmixpT := fun _ _ => 0, p_range := (3, 8), h_range := (0, 1000000),
    T_range := (0, 0), init_file := false }

/-- A single-fluid connection whose pressure 2 is inside the fluid
valid range but below the network range minimum 3. -/
def connMidP : Conn :=
  { conn0 with m_set := true, p := 2, h := 400, fvals := [1], fsets := [false] }

theorem single_fluid_connMidP :
    single_fluid cfgRange.fluids connMidP.fvals = some "water" := by
  have : err < (1:ℚ) := by norm_num [err]
  simp [single_fluid, cfgRange, connMidP, conn0, List.filter, this]

/-- C8 (counterexample): during iteration 0 with no initialisation
file, the connection with a single known fluid and pressure 2 below the
network pressure-range minimum 3 is NOT clamped to the network range —
the network-range pass is an elif reached only by connections without a
single known fluid. -/
theorem range_repair_claim_false :
    single_fluid cfgRange.fluids connMidP.fvals = some "water" ∧
    connMidP.p_set = false ∧
    (solve_check_props cfgRange 0 connMidP).p = 2 ∧
    ¬(cfgRange.p_range.1 ≤ (solve_check_props cfgRange 0 connMidP).p) := by
  have hsf := single_fluid_connMidP
  have hp2 : (solve_check_props cfgRange 0 connMidP).p = 2 := by
    simp only [solve_check_props, hsf, solve_check_props_single]
    norm_num [cfgRange, connMidP, conn0]
  refine ⟨hsf, rfl, hp2, ?_⟩
  rw [hp2]; norm_num [cfgRange]

/-- C8 (amended): the repair pass never touches user-set pressure or
enthalpy; for a connection with a single known fluid it is independent
of the network value ranges and of the iteration counter, clamps
non-set pressure to 1.1·pmin below the fluid range and to 0.9·pmax
above it, and repairs non-set enthalpy against hmin = h_pT(p, 1.01·Tmin)
and hmax = h_pT(p, 0.99·Tmax) with factors 3, 1/3 and 0.9; the network
value ranges are applied only to connections without a single known
fluid, during the first three iterations without an initialisation
file. -/
theorem range_repair_spec (cfg cfg' : SolveCfg) (iter iter' : ℕ)
    (c : Conn) (fl : String) :
    (c.p_set = true → (solve_check_props cfg iter c).p = c.p) ∧
    (c.h_set = true → (solve_check_props cfg iter c).h = c.h) ∧
    (single_fluid cfg.fluids c.fvals = some fl →
      cfg.fluids = cfg'.fluids → cfg.vrange = cfg'.vrange →
      cfg.hpT = cfg'.hpT →
      solve_check_props cfg iter c = solve_check_props cfg' iter' c) ∧
    (single_fluid cfg.fluids c.fvals = some fl → c.p_set = false →
      (c.p < (cfg.vrange fl).1 →
        (cfg.vrange fl).1 * 1.1 ≤ (cfg.vrange fl).2.1 →
        (solve_check_props cfg iter c).p = (cfg.vrange fl).1 * 1.1) ∧
      ((cfg.vrange fl).1 ≤ c.p → c.p ≤ (cfg.vrange fl).2.1 →
        (solve_check_props cfg iter c).p = c.p) ∧
      ((cfg.vrange fl).1 ≤ c.p → (cfg.vrange fl).2.1 < c.p →
        (solve_check_props cfg iter c).p = (cfg.vrange fl).2.1 * 0.9)) ∧
    (single_fluid cfg.fluids c.fvals = some fl → c.p_set = false →
      c.h_set = false →
      (cfg.vrange fl).1 ≤ c.p → c.p ≤ (cfg.vrange fl).2.1 →
      ((c.h < cfg.hpT c.p ((cfg.vrange fl).2.2.1 * 1.01) fl → 0 ≤ c.h →
        cfg.hpT c.p ((cfg.vrange fl).2.2.1 * 1.01) fl * 3 ≤
          cfg.hpT c.p ((cfg.vrange fl).2.2.2 * 0.99) fl →
        (solve_check_props cfg iter c).h =
          cfg.hpT c.p ((cfg.vrange fl).2.2.1 * 1.01) fl * 3) ∧
       (c.h < cfg.hpT c.p ((cfg.vrange fl).2.2.1 * 1.01) fl → c.h < 0 →
        cfg.hpT c.p ((cfg.vrange fl).2.2.1 * 1.01) fl / 3 ≤
          cfg.hpT c.p ((cfg.vrange fl).2.2.2 * 0.99) fl →
        (solve_check_props cfg iter c).h =
          cfg.hpT c.p ((cfg.vrange fl).2.2.1 * 1.01) fl / 3) ∧
       (cfg.hpT c.p ((cfg.vrange fl).2.2.1 * 1.01) fl ≤ c.h →
        c.h ≤ cfg.hpT c.p ((cfg.vrange fl).2.2.2 * 0.99) fl →
        (solve_check_props cfg iter c).h = c.h))) ∧
    (single_fluid cfg.fluids c.fvals = none → iter < 3 →
      cfg.init_file = false → c.p_set = false →
      c.p ≤ cfg.p_range.1 → cfg.p_range.1 < cfg.p_range.2 →
      (solve_check_props cfg iter c).p = cfg.p_range.1) ∧
    (single_fluid cfg.fluids c.fvals = none → 3 ≤ iter →
      solve_check_props cfg iter c = c) := by
  refine ⟨solve_check_props_p_set cfg iter c,
    solve_check_props_h_set cfg iter c, ?_, ?_, ?_, ?_, ?_⟩
  · intro hsf hfl hvr hhp
    have hsf' : single_fluid cfg'.fluids c.fvals = some fl := by
      rw [← hfl]; exact hsf
    simp only [solve_check_props, hsf, hsf']
    unfold solve_check_props_single
    rw [hvr, hhp]
  · intro hsf hp
    simp only [solve_check_props, hsf]
    unfold solve_check_props_single
    refine ⟨?_, ?_, ?_⟩
    · intro h1 h2
      have hno2 : ¬((cfg.vrange fl).1 * 1.1 > (cfg.vrange fl).2.1) :=
        not_lt.mpr h2
      simp [hp, h1, hno2]
    · intro h1 h2
      have hno1 : ¬(c.p < (cfg.vrange fl).1) := not_lt.mpr h1
      have hno2 : ¬(c.p > (cfg.vrange fl).2.1) := not_lt.mpr h2
      simp [hp, hno1, hno2]
    · intro h1 h2
      have hno1 : ¬(c.p < (cfg.vrange fl).1) := not_lt.mpr h1
      simp [hp, hno1, h2]
  · intro hsf hp hh h1 h2
    have hno1 : ¬(c.p < (cfg.vrange fl).1) := not_lt.mpr h1
    have hno2 : ¬(c.p > (cfg.vrange fl).2.1) := not_lt.mpr h2
    simp only [solve_check_props, hsf]
    unfold solve_check_props_single
    refine ⟨?_, ?_, ?_⟩
    · intro hlow hnn hbound
      have hnneg : ¬(c.h < 0) := not_lt.mpr hnn
      have hbig : ¬(cfg.hpT c.p ((cfg.vrange fl).2.2.1 * 1.01) fl * 3 >
          cfg.hpT c.p ((cfg.vrange fl).2.2.2 * 0.99) fl) := not_lt.mpr hbound
      simp [hp, hh, hno1, hno2, hlow, hnneg, hbig]
    · intro hlow hneg hbound
      have hbig : ¬(cfg.hpT c.p ((cfg.vrange fl).2.2.1 * 1.01) fl / 3 >
          cfg.hpT c.p ((cfg.vrange fl).2.2.2 * 0.99) fl) := not_lt.mpr hbound
      simp [hp, hh, hno1, hno2, hlow, hneg, hbig]
    · intro hge hle
      have hnlow : ¬(c.h < cfg.hpT c.p ((cfg.vrange fl).2.2.1 * 1.01) fl) :=
        not_lt.mpr hge
      have hnhigh : ¬(c.h > cfg.hpT c.p ((cfg.vrange fl).2.2.2 * 0.99) fl) :=
        not_lt.mpr hle
      simp [hp, hh, hno1, hno2, hnlow, hnhigh]
  · intro hsf hit hif hp hle hlt
    have hit' : (decide (iter < 3) && !cfg.init_file) = true := by
      simp [hit, hif]
    simp only [solve_check_props, hsf, hit', if_true]
    unfold solve_check_props_global solve_check_temperature
    have hno2 : ¬(cfg.p_range.1 ≥ cfg.p_range.2) := not_le.mpr hlt
    simp [apply_ite (fun x : Conn => x.p), hp, hle, hno2]
  · intro hsf hit
    have hit' : (decide (iter < 3) && !cfg.init_file) = false := by
      simp [Nat.not_lt.mpr hit]
    simp [solve_check_props, hsf, hit']

/-- C8 (witness for the amended theorem): for the one-fluid
configuration, a non-set pressure 1/2 below the fluid range minimum 1
is clamped to 1.1. -/
theorem range_repair_spec_witness :
    (solve_check_props cfgRange 0
        { conn0 with p := 1/2, h := 400, fvals := [1], fsets := [false] }).p
      = 1 * 1.1 := by
  have hsf : single_fluid cfgRange.fluids
      ({ conn0 with p := 1/2, h := 400, fvals := [1], fsets := [false] } : Conn).fvals
      = some "water" := by
    have : err < (1:ℚ) := by norm_num [err]
    simp [single_fluid, cfgRange, conn0, List.filter, this]
  have h := (range_repair_spec cfgRange cfgRange 0 0
    { conn0 with p := 1/2, h := 400, fvals := [1], fsets := [false] }
    "water").2.2.2.1 hsf rfl
  have h1 := h.1 (by norm_num [cfgRange, conn0]) (by norm_num [cfgRange])
  simpa [cfgRange] using h1

/-- A custom component variable (tespy component free variable): value
and declared bounds. -/
structure CVar where
  val : ℚ
  min_val : ℚ
  max_val : ℚ
deriving DecidableEq

/-- The component-variable update of solve_control (networks.py lines
1318-1325): add increment · relax, then clamp to [min_val, max_val]. -/
def updateCVar (relax z : ℚ) (v : CVar) : CVar :=
  let x := v.val + z * relax
  let x1 := if x < v.min_val then v.min_val else x
  let x2 := if x1 > v.max_val then v.max_val else x1
  { v with val := x2 }

/-- Walk one component's variable list (positions var_pos = 0, 1, ...),
reading increments at base + pos. -/
def updateCVarList (z : ℕ → ℚ) (relax : ℚ) : ℕ → List CVar → List CVar
  | _, [] => []
  | base, v :: vs => updateCVar relax (z base) v :: updateCVarList z relax (base + 1) vs

/-- Walk the component list (lines 1307-1327); each component's block
of variables starts at the accumulated offset c_vars. -/
def updateCVars (z : ℕ → ℚ) (relax : ℚ) : ℕ → List (List CVar) → List (List CVar)
  | _, [] => []
  | base, vs :: rest =>
    updateCVarList z relax base vs :: updateCVars z relax (base + vs.length) rest

/-- The mutable solver state: the connection list and the per-component
free-variable lists. -/
structure NState where
  conns : List Conn
  cvars : List (List CVar)
deriving DecidableEq

/-- The connection loop of solve_control (lines 1269-1297): each
connection i gets its increment block and the repair pass. -/
def applyIncrementAux (cfg : SolveCfg) (iter : ℕ) (z : ℕ → ℚ) (nv : ℕ) :
    ℕ → List Conn → List Conn
  | _, [] => []
  | i, c :: cs =>
    solveControlConn cfg iter z nv i c :: applyIncrementAux cfg iter z nv (i + 1) cs

/-- solve_control (networks.py lines 1233-1332).  The equation
assembly and linear solve are abstracted into the argument lin: none
models the LinAlgError of inv(mat_deriv) (the except branch, lines
1260-1262, sets vec_z to the zero vector and lin_dep stays True, and
the function returns before touching any variable); some z models a
successful solve with increment vector z.  The external per-component
convergence_check hooks (lines 1330-1332) are the argument hook, run
only while iter < 3 with no initialisation file.  Returns the new
state, vec_z and lin_dep. -/
def solveControl (cfg : SolveCfg) (hook : NState → NState)
    (lin : Option (ℕ → ℚ)) (iter : ℕ) (relax : ℚ) (st : NState) :
    NState × (ℕ → ℚ) × Bool :=
  match lin with
  | none => (st, fun _ => 0, true)
  | some z =>
    let nv := cfg.fluids.length + 3
    let st' : NState := ⟨applyIncrementAux cfg iter z nv 0 st.conns,
                         updateCVars z relax (nv * st.conns.length) st.cvars⟩
    let st'' := if iter < 3 && !cfg.init_file then hook st' else st'
    (st'', z, false)

/-- The value solve_loop returns: None (converged or singular), the
stall warning, or the maximum-iteration warning. -/
inductive ExitMsg
  | noMsg
  | stallMsg
  | maxIterMsg
deriving DecidableEq

/-- The observable outcome of solve_loop: final state, the lin_dep
flag, the residual-norm history and the returned message. -/
structure LoopResult where
  st : NState
  lin_dep : Bool
  res : List ℚ
  msg : ExitMsg
deriving DecidableEq

/-- The convergence test of solve_loop (networks.py line 1213):
iter > 3 and the last residual norm below the tolerance (err ** (1/2),
abstracted as tol). -/
def convergence_check (iter : ℕ) (res : List ℚ) (tol : ℚ) : Bool :=
  decide (3 < iter) && decide (res.getD (res.length - 1) 0 < tol)

/-- The stall test of solve_loop (networks.py lines 1218-1219):
all(res[iter - 3:] >= res[-2]) and res[-1] >= res[-2], with Python's
negative indices res[-1], res[-2] read from the end of the list. -/
def stall_check (iter : ℕ) (res : List ℚ) : Bool :=
  ((res.drop (iter - 3)).all
      (fun x => decide (res.getD (res.length - 2) 0 ≤ x))) &&
    decide (res.getD (res.length - 2) 0 ≤ res.getD (res.length - 1) 0)

/-- Follows the spec's words, for comparison with stall_check: the
last three residual norms are non-decreasing. -/
def specLastThreeNonDecreasing (res : List ℚ) : Bool :=
  decide (res.getD (res.length - 3) 0 ≤ res.getD (res.length - 2) 0) &&
    decide (res.getD (res.length - 2) 0 ≤ res.getD (res.length - 1) 0)

/-- The iteration loop of solve_loop (networks.py lines 1174-1231) from
iteration iter with fuel remaining iterations: run solve_control,
append the residual norm (the external norm of the assembled residual
is the argument resOf), return None on convergence or singularity,
return the stall warning past iteration 20 on the stall test, and the
maximum-iteration warning when the fuel (max_iter) runs out. -/
def solveLoopAux (cfg : SolveCfg) (hook : NState → NState)
    (linOf : ℕ → NState → Option (ℕ → ℚ)) (resOf : ℕ → NState → ℚ)
    (tol : ℚ) : ℕ → ℕ → NState → List ℚ → LoopResult
  | 0, _, st, res => ⟨st, false, res, .maxIterMsg⟩
  | fuel + 1, iter, st, res =>
    let r := solveControl cfg hook (linOf iter st) iter 1 st
    let res' := res ++ [resOf iter st]
    if convergence_check iter res' tol || r.2.2 then ⟨r.1, r.2.2, res', .noMsg⟩
    else if decide (20 < iter) && stall_check iter res' then
      ⟨r.1, r.2.2, res', .stallMsg⟩
    else solveLoopAux cfg hook linOf resOf tol fuel (iter + 1) r.1 res'

/-- solve_loop (networks.py): iterate from 0 for max_iter iterations
with relax = 1 and an empty residual history. -/
def solve_loop (cfg : SolveCfg) (hook : NState → NState)
    (linOf : ℕ → NState → Option (ℕ → ℚ)) (resOf : ℕ → NState → ℚ)
    (tol : ℚ) (maxIter : ℕ) (st : NState) : LoopResult :=
  solveLoopAux cfg hook linOf resOf tol maxIter 0 st []

/-- C4: when the linear solve is singular, solve_control returns the
all-zero increment vector and the unchanged state with lin_dep set,
and the iteration loop terminates right there with message None — the
singular outcome is a terminal result, not an exception. -/
theorem singular_solve_state_unchanged (cfg : SolveCfg)
    (hook : NState → NState) (linOf : ℕ → NState → Option (ℕ → ℚ))
    (resOf : ℕ → NState → ℚ) (tol : ℚ) (fuel iter : ℕ) (st : NState)
    (res : List ℚ) (hsing : linOf iter st = none) :
    solveControl cfg hook (linOf iter st) iter 1 st =
      (st, (fun _ => (0:ℚ)), true) ∧
    solveLoopAux cfg hook linOf resOf tol (fuel + 1) iter st res =
      ⟨st, true, res ++ [resOf iter st], ExitMsg.noMsg⟩ := by
  constructor
  · rw [hsing]; rfl
  · simp only [solveLoopAux, hsing, solveControl, Bool.or_true, if_true]

/-- C4 (witness): a singular solve at iteration 0 of a concrete loop
leaves the empty state unchanged and exits with message None. -/
theorem singular_solve_state_unchanged_witness :
    solveLoopAux cfg0 id (fun _ _ => none) (fun _ _ => 5) 0 4 0 ⟨[], []⟩ [] =
      ⟨⟨[], []⟩, true, [5], ExitMsg.noMsg⟩ :=
  (singular_solve_state_unchanged cfg0 id (fun _ _ => none) (fun _ _ => 5)
    0 3 0 ⟨[], []⟩ [] rfl).2

theorem drop_eq_last_four :
    ∀ (k : ℕ) (l : List ℚ), l.length = k + 4 →
      l.drop k = [l.getD k 0, l.getD (k + 1) 0, l.getD (k + 1 + 1) 0,
        l.getD (k + 1 + 1 + 1) 0] := by
  intro k
  induction k with
  | zero =>
    intro l hl
    match l, hl with
    | [a, b, c, d], _ => simp
  | succ k ih =>
    intro l hl
    match l with
    | [] => simp at hl
    | a :: l =>
      have hl' : l.length = k + 4 := by
        simp only [List.length_cons] at hl; omega
      simp only [List.drop_succ_cons, List.getD_cons_succ]
      exact ih l hl'

/-- C7 (amended): past iteration 20 (and with a nonsingular solve and
no convergence exit this iteration), the stall abort of solve_loop
fires if and only if the second-to-last residual norm is a minimum of
the LAST FOUR residual norms — res[iter-3], res[iter-2] and res[iter]
all at least res[iter-1] — not when the last three norms are
non-decreasing; when it fires the loop stops with the stall warning,
otherwise it continues into the next iteration. -/
theorem stall_condition_last_four (cfg : SolveCfg) (hook : NState → NState)
    (linOf : ℕ → NState → Option (ℕ → ℚ)) (resOf : ℕ → NState → ℚ)
    (tol : ℚ) (fuel iter : ℕ) (st : NState) (res : List ℚ) (z : ℕ → ℚ)
    (hlin : linOf iter st = some z)
    (hlen : res.length = iter)
    (h20 : 20 < iter)
    (hconv : convergence_check iter (res ++ [resOf iter st]) tol = false) :
    (stall_check iter (res ++ [resOf iter st]) = true ↔
      ((res ++ [resOf iter st]).getD (iter - 1) 0 ≤
          (res ++ [resOf iter st]).getD (iter - 3) 0 ∧
        (res ++ [resOf iter st]).getD (iter - 1) 0 ≤
          (res ++ [resOf iter st]).getD (iter - 2) 0 ∧
        (res ++ [resOf iter st]).getD (iter - 1) 0 ≤
          (res ++ [resOf iter st]).getD iter 0)) ∧
    (stall_check iter (res ++ [resOf iter st]) = true →
      solveLoopAux cfg hook linOf resOf tol (fuel + 1) iter st res =
        ⟨(solveControl cfg hook (some z) iter 1 st).1, false,
          res ++ [resOf iter st], ExitMsg.stallMsg⟩) ∧
    (stall_check iter (res ++ [resOf iter st]) = false →
      solveLoopAux cfg hook linOf resOf tol (fuel + 1) iter st res =
        solveLoopAux cfg hook linOf resOf tol fuel (iter + 1)
          (solveControl cfg hook (some z) iter 1 st).1
          (res ++ [resOf iter st])) := by
  have hlen' : (res ++ [resOf iter st]).length = iter + 1 := by
    simp [hlen]
  refine ⟨?_, ?_, ?_⟩
  · have hk : (res ++ [resOf iter st]).length = (iter - 3) + 4 := by
      rw [hlen']; omega
    unfold stall_check
    rw [drop_eq_last_four (iter - 3) _ hk, hlen']
    have e1 : iter - 3 + 1 = iter - 2 := by omega
    have e2 : iter - 2 + 1 = iter - 1 := by omega
    have e3 : iter - 1 + 1 = iter := by omega
    have e4 : iter + 1 - 2 = iter - 1 := by omega
    have e5 : iter + 1 - 1 = iter := by omega
    rw [e1, e2, e3, e4, e5]
    simp only [List.all_cons, List.all_nil, Bool.and_true,
      Bool.and_eq_true, decide_eq_true_eq]
    constructor
    · rintro ⟨⟨h1, h2, _, h4⟩, _⟩
      exact ⟨h1, h2, h4⟩
    · rintro ⟨h1, h2, h3⟩
      exact ⟨⟨h1, h2, le_refl _, h3⟩, h3⟩
  · intro hst
    have hg : (decide (20 < iter) &&
        stall_check iter (res ++ [resOf iter st])) = true := by
      rw [hst]; simp [h20]
    simp only [solveLoopAux, hlin, solveControl, hconv]
    simp [hg]
  · intro hst
    have hg : (decide (20 < iter) &&
        stall_check iter (res ++ [resOf iter st])) = false := by
      rw [hst]; simp
    simp only [solveLoopAux, hlin, solveControl, hconv]
    simp [hg]

/-- The residual history of 21 iterations whose last three entries
together with the next norm 7 are non-decreasing (1, 5, 6, 7). -/
def resHistA : List ℚ :=
  [9, 9, 9, 9, 9, 9, 9, 9, 9, 9, 9, 9, 9, 9, 9, 9, 9, 9, 1, 5, 6]

/-- The residual history of 21 iterations for which the next norm 4
makes the second-to-last norm 3 a minimum of the last four
(10, 5, 3, 4), though the last three are not non-decreasing. -/
def resHistB : List ℚ :=
  [9, 9, 9, 9, 9, 9, 9, 9, 9, 9, 9, 9, 9, 9, 9, 9, 9, 9, 10, 5, 3]

/-- C7 (counterexample): at iteration 21 the history ending 1, 5, 6, 7
has its last three norms non-decreasing, yet the loop does not stall —
it runs on to the iteration cap — because res[iter-3] = 1 is below
res[-2]; and the history ending 10, 5, 3, 4, whose last three norms
are NOT non-decreasing, does trigger the stall abort. -/
theorem stall_claim_false :
    specLastThreeNonDecreasing (resHistA ++ [7]) = true ∧
    (solveLoopAux cfg0 id (fun _ _ => some fun _ => 0) (fun _ _ => 7) 0 2 21
        ⟨[], []⟩ resHistA).msg = ExitMsg.maxIterMsg ∧
    specLastThreeNonDecreasing (resHistB ++ [4]) = false ∧
    (solveLoopAux cfg0 id (fun _ _ => some fun _ => 0) (fun _ _ => 4) 0 2 21
        ⟨[], []⟩ resHistB).msg = ExitMsg.stallMsg := by
  refine ⟨by decide, by decide, by decide, by decide⟩

/-- C7 (witness for the amended theorem): the concrete stall history
satisfies the last-four condition and the loop exits with the stall
warning. -/
theorem stall_condition_last_four_witness :
    solveLoopAux cfg0 id (fun _ _ => some fun _ => 0) (fun _ _ => 4) 0 3 21
        ⟨[], []⟩ resHistB =
      ⟨(solveControl cfg0 id (some fun _ => 0) 21 1 ⟨[], []⟩).1, false,
        resHistB ++ [4], ExitMsg.stallMsg⟩ :=
  (stall_condition_last_four cfg0 id (fun _ _ => some fun _ => 0)
    (fun _ _ => 4) 0 2 21 ⟨[], []⟩ resHistB (fun _ => 0) rfl (by decide)
    (by decide) (by decide)).2.1 (by decide)

/-- A component as solve_determination sees it: its number of free
variables (cp.num_c_vars) and the number of equations it supplies
(len(cp.equations()) — the equations themselves are external component
code, only their count enters the check). -/
structure DComp where
  num_c_vars : ℕ
  num_eq : ℕ
deriving DecidableEq

/-- The network as the degrees-of-freedom check sees it; each bus
contributes its b.P.val_set flag. -/
structure DNet where
  fluids : List String
  conns : List Conn
  comps : List DComp
  busses : List Bool

/-- The outcome of solve_determination: return, or one of the two
MyNetworkError messages, each reporting the required and supplied
parameter counts. -/
inductive DetResult
  | ok
  | tooMany (required supplied : ℕ)
  | tooFew (required supplied : ℕ)
deriving DecidableEq

/-- The per-connection contribution to n in solve_determination
(networks.py lines 1950-1956): set flags of the six properties,
reference flags of four, fixed fluid fractions, and the balance flag. -/
def connParamCount (c : Conn) : ℕ :=
  ([c.m_set, c.p_set, c.h_set, c.T_set, c.x_set, c.v_set].count true) +
    ([c.m_ref, c.p_ref, c.h_ref, c.T_ref].count true) +
    (c.fsets.count true) +
    ([c.balance].count true)

/-- solve_determination (networks.py lines 1936-1974): accumulate the
supplied parameter count n over components, connections and busses,
compare with num_vars · |conns| + num_c_vars (num_vars = |fluids| + 3,
line 1064), and report too many / not enough with both counts. -/
def solve_determination (nw : DNet) : DetResult :=
  let n := nw.busses.foldl (fun a b => a + [b].count true)
    (nw.conns.foldl (fun a c => a + connParamCount c)
      (nw.comps.foldl (fun a cp => a + cp.num_eq) 0))
  let req := (nw.fluids.length + 3) * nw.conns.length +
    nw.comps.foldl (fun a cp => a + cp.num_c_vars) 0
  if n > req then DetResult.tooMany req n
  else if n < req then DetResult.tooFew req n
  else DetResult.ok

/-- From the spec's words: total unknowns, (3 + |fluids|) per
connection plus every component free variable. -/
def requiredSpec (nw : DNet) : ℕ :=
  (3 + nw.fluids.length) * nw.conns.length +
    (nw.comps.map (fun cp => cp.num_c_vars)).sum

/-- From the spec's words: supplied parameters — component equations,
per-connection set/reference/fluid-fixed/balance rows, per-bus
fixed-power rows. -/
def suppliedSpec (nw : DNet) : ℕ :=
  (nw.comps.map (fun cp => cp.num_eq)).sum +
    (nw.conns.map connParamCount).sum +
    (nw.busses.map (fun b => if b then 1 else 0)).sum

theorem foldl_add_eq {α : Type} (f : α → ℕ) (l : List α) :
    ∀ n, l.foldl (fun a x => a + f x) n = n + (l.map f).sum := by
  induction l with
  | nil => intro n; simp
  | cons x l ih =>
    intro n
    simp only [List.foldl_cons, List.map_cons, List.sum_cons, ih]
    omega

theorem bool_count_singleton (b : Bool) :
    ([b].count true) = if b then 1 else 0 := by
  cases b <;> rfl

theorem solve_determination_eq (nw : DNet) :
    solve_determination nw =
      if requiredSpec nw < suppliedSpec nw then
        DetResult.tooMany (requiredSpec nw) (suppliedSpec nw)
      else if suppliedSpec nw < requiredSpec nw then
        DetResult.tooFew (requiredSpec nw) (suppliedSpec nw)
      else DetResult.ok := by
  have hD : (nw.busses.map (fun b => [b].count true)).sum =
      (nw.busses.map (fun b => if b then 1 else 0)).sum := by
    simp only [bool_count_singleton]
  simp only [solve_determination, requiredSpec, suppliedSpec,
    foldl_add_eq, Nat.zero_add, hD, gt_iff_lt]
  rw [Nat.add_comm 3 nw.fluids.length]

/-- C5: solve_determination returns without error exactly when the
supplied parameter count equals the unknown count
(3 + |fluids|) · |connections| + Σ component free variables; both error
outcomes carry exactly those two counts and distinguish too many from
not enough; and the outcome is invariant under reordering of the
connection, component and bus collections. -/
theorem solve_determination_spec (nw nw' : DNet)
    (hf : nw.fluids.length = nw'.fluids.length)
    (hc : nw.conns.Perm nw'.conns)
    (hm : nw.comps.Perm nw'.comps)
    (hb : nw.busses.Perm nw'.busses) :
    (solve_determination nw = DetResult.ok ↔
      suppliedSpec nw = requiredSpec nw) ∧
    (∀ r s, solve_determination nw = DetResult.tooMany r s →
      r = requiredSpec nw ∧ s = suppliedSpec nw ∧ r < s) ∧
    (∀ r s, solve_determination nw = DetResult.tooFew r s →
      r = requiredSpec nw ∧ s = suppliedSpec nw ∧ s < r) ∧
    solve_determination nw = solve_determination nw' := by
  have hS : suppliedSpec nw = suppliedSpec nw' := by
    unfold suppliedSpec
    rw [(hm.map _).sum_eq, (hc.map _).sum_eq, (hb.map _).sum_eq]
  have hR : requiredSpec nw = requiredSpec nw' := by
    unfold requiredSpec
    rw [hf, hc.length_eq, (hm.map (fun cp => cp.num_c_vars)).sum_eq]
  rw [solve_determination_eq nw, solve_determination_eq nw']
  rw [hS, hR]
  rcases Nat.lt_trichotomy (requiredSpec nw') (suppliedSpec nw') with h | h | h
  · rw [if_pos h]
    refine ⟨?_, ?_, ?_, rfl⟩
    · constructor
      · intro hx; exact absurd hx (by simp)
      · intro hx; omega
    · intro r s hx
      injection hx with h1 h2
      exact ⟨h1.symm, h2.symm, by omega⟩
    · intro r s hx; exact absurd hx (by simp)
  · rw [if_neg (by omega), if_neg (by omega)]
    refine ⟨?_, ?_, ?_, rfl⟩
    · simp [h.symm]
    · intro r s hx; exact absurd hx (by simp)
    · intro r s hx; exact absurd hx (by simp)
  · rw [if_neg (by omega), if_pos h]
    refine ⟨?_, ?_, ?_, rfl⟩
    · constructor
      · intro hx; exact absurd hx (by simp)
      · intro hx; omega
    · intro r s hx; exact absurd hx (by simp)
    · intro r s hx
      injection hx with h1 h2
      exact ⟨h1.symm, h2.symm, by omega⟩

/-- A one-fluid, one-connection network supplying exactly the four
required parameters (mass flow, pressure, enthalpy, one fixed
fraction). -/
def dnetExact : DNet :=
  ⟨["a"], [{ conn0 with m_set := true, p_set := true, h_set := true, fvals := [1], fsets := [true] }], [], []⟩

/-- C5 (witness): the exactly determined network passes the check, and
its reversed variant gives the same outcome. -/
theorem solve_determination_spec_witness :
    solve_determination dnetExact = DetResult.ok :=
  (solve_determination_spec dnetExact dnetExact rfl (List.Perm.refl _)
    (List.Perm.refl _) (List.Perm.refl _)).1.mpr rfl

/-- One row of the network connection table (network.conns): source and
target component labels and port identifiers; the table index (the
connection object) is modelled by a numeric identifier. -/
structure CRow where
  s : String
  s_id : String
  t : String
  t_id : String
deriving DecidableEq

/-- The connection table, in insertion order, indexed by connection
identifier. -/
abbrev ConnTable := List (ℕ × CRow)

/-- The two MyNetworkError outcomes of check_conns. -/
inductive NetErr
  | sourceInUse
  | targetInUse
deriving DecidableEq

/-- self.conns.loc[c] = [...] (networks.py line 382): overwrite the row
of an existing index, or append a new row. -/
def locSet (tbl : ConnTable) (cid : ℕ) (row : CRow) : ConnTable :=
  if tbl.any (fun e => e.1 == cid) then
    tbl.map (fun e => if e.1 == cid then (cid, row) else e)
  else tbl ++ [(cid, row)]

/-- The row stored under an index. -/
def rowOf (tbl : ConnTable) (cid : ℕ) : Option CRow :=
  (tbl.find? (fun e => e.1 == cid)).map (fun e => e.2)

/-- self.conns.duplicated(['s', 's_id'])[c]: the row of c repeats the
(s, s_id) pair of an earlier row of the table. -/
def duplicatedS (tbl : ConnTable) (cid : ℕ) : Bool :=
  match rowOf tbl cid with
  | some r => (tbl.takeWhile (fun e => !(e.1 == cid))).any
      (fun e => e.2.s == r.s && e.2.s_id == r.s_id)
  | none => false

/-- self.conns.duplicated(['t', 't_id'])[c]: the row of c repeats the
(t, t_id) pair of an earlier row of the table. -/
def duplicatedT (tbl : ConnTable) (cid : ℕ) : Bool :=
  match rowOf tbl cid with
  | some r => (tbl.takeWhile (fun e => !(e.1 == cid))).any
      (fun e => e.2.t == r.t && e.2.t_id == r.t_id)
  | none => false

/-- check_conns (networks.py lines 365-391): write the row into the
table, and if its source or target port repeats an earlier row, remove
the row again (self.conns = self.conns[self.conns.index != c]) and
raise; returns the resulting table and the raised error, if any. -/
def check_conns (tbl : ConnTable) (cid : ℕ) (row : CRow) :
    ConnTable × Option NetErr :=
  let t1 := locSet tbl cid row
  if duplicatedS t1 cid then
    (t1.filter (fun e => !(e.1 == cid)), some NetErr.sourceInUse)
  else if duplicatedT t1 cid then
    (t1.filter (fun e => !(e.1 == cid)), some NetErr.targetInUse)
  else (t1, none)

theorem takeWhile_fresh_append (cid : ℕ) (row : CRow) :
    ∀ (tbl : ConnTable), (∀ e ∈ tbl, e.1 ≠ cid) →
      (tbl ++ [(cid, row)]).takeWhile (fun e => !(e.1 == cid)) = tbl := by
  intro tbl
  induction tbl with
  | nil => intro _; simp [List.takeWhile]
  | cons e tbl ih =>
    intro hfresh
    have he : e.1 ≠ cid := hfresh e (List.mem_cons_self e tbl)
    have hi := ih (fun x hx => hfresh x (List.mem_cons_of_mem e hx))
    simp only [List.cons_append, List.takeWhile_cons]
    simp [he, hi]

theorem filter_fresh_append (cid : ℕ) (row : CRow) :
    ∀ (tbl : ConnTable), (∀ e ∈ tbl, e.1 ≠ cid) →
      (tbl ++ [(cid, row)]).filter (fun e => !(e.1 == cid)) = tbl := by
  intro tbl
  induction tbl with
  | nil => intro _; simp [List.filter]
  | cons e tbl ih =>
    intro hfresh
    have he : e.1 ≠ cid := hfresh e (List.mem_cons_self e tbl)
    have hi := ih (fun x hx => hfresh x (List.mem_cons_of_mem e hx))
    simp only [List.cons_append, List.filter_cons]
    simp [he, hi]

theorem rowOf_fresh_append (cid : ℕ) (row : CRow) :
    ∀ (tbl : ConnTable), (∀ e ∈ tbl, e.1 ≠ cid) →
      rowOf (tbl ++ [(cid, row)]) cid = some row := by
  intro tbl
  induction tbl with
  | nil => intro _; simp [rowOf, List.find?]
  | cons e tbl ih =>
    intro hfresh
    have hi := ih (fun x hx => hfresh x (List.mem_cons_of_mem e hx))
    unfold rowOf at hi ⊢
    rw [List.cons_append, List.find?_cons_of_neg]
    · exact hi
    · simpa using hfresh e (List.mem_cons_self e tbl)

/-- C10: adding a fresh connection whose source (s, s_id) or target
(t, t_id) port is already used by a row of the table raises
MyNetworkError and leaves the table exactly as it was — the offending
row is removed before raising; a non-conflicting add appends the row. -/
theorem check_conns_no_partial_mutation (tbl : ConnTable) (cid : ℕ)
    (row : CRow) (hfresh : ∀ e ∈ tbl, e.1 ≠ cid) :
    ((check_conns tbl cid row).2.isSome ↔
      (∃ e ∈ tbl, e.2.s = row.s ∧ e.2.s_id = row.s_id) ∨
        (∃ e ∈ tbl, e.2.t = row.t ∧ e.2.t_id = row.t_id)) ∧
    ((check_conns tbl cid row).2.isSome →
      (check_conns tbl cid row).1 = tbl) ∧
    ((check_conns tbl cid row).2 = none →
      (check_conns tbl cid row).1 = tbl ++ [(cid, row)]) := by
  have hanyf : tbl.any (fun e => e.1 == cid) = false := by
    rw [List.any_eq_false]
    intro e he
    simpa using hfresh e he
  have ht1 : locSet tbl cid row = tbl ++ [(cid, row)] := by
    simp [locSet, hanyf]
  have htake := takeWhile_fresh_append cid row tbl hfresh
  have hfilt := filter_fresh_append cid row tbl hfresh
  have hrow := rowOf_fresh_append cid row tbl hfresh
  have hdupS : duplicatedS (tbl ++ [(cid, row)]) cid =
      tbl.any (fun e => e.2.s == row.s && e.2.s_id == row.s_id) := by
    simp only [duplicatedS, hrow, htake]
  have hdupT : duplicatedT (tbl ++ [(cid, row)]) cid =
      tbl.any (fun e => e.2.t == row.t && e.2.t_id == row.t_id) := by
    simp only [duplicatedT, hrow, htake]
  simp only [check_conns, ht1, hdupS, hdupT]
  by_cases hs : tbl.any (fun e => e.2.s == row.s && e.2.s_id == row.s_id) = true
  · simp only [hs, if_true]
    refine ⟨?_, fun _ => hfilt, by simp⟩
    simp only [Option.isSome_some, true_iff]
    left
    rw [List.any_eq_true] at hs
    obtain ⟨e, he, hcond⟩ := hs
    exact ⟨e, he, by simpa using hcond⟩
  · simp only [Bool.not_eq_true] at hs
    simp only [hs, if_false, Bool.false_eq_true]
    by_cases ht : tbl.any (fun e => e.2.t == row.t && e.2.t_id == row.t_id) = true
    · simp only [ht, if_true]
      refine ⟨?_, fun _ => hfilt, by simp⟩
      simp only [Option.isSome_some, true_iff]
      right
      rw [List.any_eq_true] at ht
      obtain ⟨e, he, hcond⟩ := ht
      exact ⟨e, he, by simpa using hcond⟩
    · simp only [Bool.not_eq_true] at ht
      simp only [ht, if_false, Bool.false_eq_true]
      refine ⟨?_, ?a2, ?a3⟩
      case a2 => intro hx; simp at hx
      case a3 => intro _; trivial
      constructor
      · intro hx; exact absurd hx (by simp)
      · rintro (⟨e, he, h1, h2⟩ | ⟨e, he, h1, h2⟩)
        · rw [List.any_eq_false] at hs
          exact ((hs e he) (by simp [h1, h2])).elim
        · rw [List.any_eq_false] at ht
          exact ((ht e he) (by simp [h1, h2])).elim

/-- C10 (witness): adding a second connection out of port out1 of
component A raises the source-in-use error and leaves the one-row
table unchanged. -/
theorem check_conns_no_partial_mutation_witness :
    (check_conns [(0, ⟨"A", "out1", "B", "in1"⟩)] 1
        ⟨"A", "out1", "C", "in1"⟩).2.isSome = true ∧
    (check_conns [(0, ⟨"A", "out1", "B", "in1"⟩)] 1
        ⟨"A", "out1", "C", "in1"⟩).1 = [(0, ⟨"A", "out1", "B", "in1"⟩)] := by
  have h := check_conns_no_partial_mutation [(0, ⟨"A", "out1", "B", "in1"⟩)]
    1 ⟨"A", "out1", "C", "in1"⟩ (by intro e he; simp at he; simp [he])
  have hsome : (check_conns [(0, ⟨"A", "out1", "B", "in1"⟩)] 1
      ⟨"A", "out1", "C", "in1"⟩).2.isSome = true := by
    rw [h.1]
    left
    simp
  exact ⟨hsome, h.2.1 hsome⟩

/-- Does the list start with the pattern? (helper for the
computable model of Python str.replace). -/
def startsWithL : List Char → List Char → Bool
  | _, [] => true
  | [], _ :: _ => false
  | a :: as, b :: bs => a == b && startsWithL as bs

/-- Replace every non-overlapping occurrence of pat by rep, scanning
left to right, with fuel bounded by the list length (the computable
model of Python str.replace). -/
def replaceLF (pat rep : List Char) : ℕ → List Char → List Char
  | 0, l => l
  | _ + 1, [] => []
  | fuel + 1, a :: as =>
    if startsWithL (a :: as) pat && !pat.isEmpty then
      rep ++ replaceLF pat rep fuel ((a :: as).drop pat.length)
    else a :: replaceLF pat rep fuel as

/-- Python str.replace(pat, rep), e.g. turning port id in1 into out1. -/
def replaceStr (s pat rep : String) : String :=
  ⟨replaceLF pat.data rep.data s.data.length s.data⟩

/-- Lexicographic comparison of character lists by code point, the
order pandas sort_values uses on the port-id strings. -/
def lexLe : List Char → List Char → Bool
  | [], _ => true
  | _ :: _, [] => false
  | a :: as, b :: bs => if a == b then lexLe as bs else decide (a.val < b.val)

/-- String comparison for the port-id sort of init_components. -/
def strLe (x y : String) : Bool := lexLe x.data y.data

/-- The component classes the fluid initialiser dispatches on
(isinstance checks of networks.py lines 637-764). -/
inductive CompKind
  | source
  | sink
  | pipe
  | heat_exchanger
  | subsys_interface
  | splitter
  | merge
  | combustion_chamber
  | cogeneration_unit
  | drum
deriving DecidableEq

/-- A component as the initialiser sees it: unique label, class, and
the declared inlet/outlet counts (len(inlets()), len(outlets())). -/
structure PComp where
  label : String
  kind : CompKind
  num_i : ℕ
  num_o : ℕ
deriving DecidableEq

/-- A connection as the fluid initialiser sees it: endpoint component
labels with port ids, and the composition dictionaries fluid.val,
fluid.val0 and fluid.val_set (ordered dicts as association lists). -/
structure ConnF where
  s : String
  s_id : String
  t : String
  t_id : String
  val : List (String × ℚ)
  val0 : List (String × ℚ)
  val_set : List (String × Bool)
deriving DecidableEq

/-- The network as the fluid initialiser sees it. -/
structure NetF where
  comps : List PComp
  conns : List ConnF
  fluids : List String

/-- Dictionary lookup in an association list. -/
def aget {α : Type} (l : List (String × α)) (k : String) : Option α :=
  (l.find? (fun e => e.1 == k)).map (fun e => e.2)

/-- Dictionary write in an association list. -/
def aset {α : Type} : List (String × α) → String → α → List (String × α)
  | [], k, v => [(k, v)]
  | e :: es, k, v => if e.1 == k then (k, v) :: es else e :: aset es k v

/-- The component with a given label (labels are unique after
check_comps). -/
def findComp (comps : List PComp) (label : String) : Option PComp :=
  comps.find? (fun cp => cp.label == label)

/-- The guard of the pass-through branch of init_target / init_source
(networks.py lines 663-665 and 716-718): one inlet and one outlet, or
a heat exchanger, or a subsystem interface. -/
def traverse_one (cp : PComp) : Bool :=
  (cp.num_i == 1 && cp.num_o == 1) || cp.kind == CompKind.heat_exchanger ||
    cp.kind == CompKind.subsys_interface

/-- The inner copy loop of init_target / init_source: write each
fraction of the source connection onto the destination, skipping
destination fractions that are user-fixed. -/
def copyInto (cs cd : ConnF) : ConnF :=
  cs.val.foldl (fun d fx =>
    if (aget d.val_set fx.1).getD false then d
    else { d with val := aset d.val fx.1 fx.2 }) cd

/-- Copy fractions between the connections at two indices. -/
def copy_fluids (conns : List ConnF) (src dst : ℕ) : List ConnF :=
  match conns[src]?, conns[dst]? with
  | some cs, some cd => conns.set dst (copyInto cs cd)
  | _, _ => conns

/-- The outlet-connection lookup of init_target (lines 667-671): the
first table row whose source is the component and whose source port id
is the target port id with in replaced by out. -/
def outConnOf (conns : List ConnF) (t tid : String) : Option ℕ :=
  conns.findIdx? (fun cc => cc.s == t && cc.s_id == replaceStr tid "in" "out")

/-- The inlet-connection lookup of init_source (lines 720-724). -/
def inConnOf (conns : List ConnF) (s sid : String) : Option ℕ :=
  conns.findIdx? (fun cc => cc.t == s && cc.t_id == replaceStr sid "out" "in")

/-- Stable insertion into a list of connection indices sorted by a
string key. -/
def insertSorted (key : ℕ → String) (x : ℕ) : List ℕ → List ℕ
  | [] => [x]
  | y :: ys =>
    if strLe (key x) (key y) then x :: y :: ys else y :: insertSorted key x ys

/-- Insertion sort by a string key (the sort_values of
init_components, lines 549-553). -/
def sortByKey (key : ℕ → String) : List ℕ → List ℕ
  | [] => []
  | x :: xs => insertSorted key x (sortByKey key xs)

/-- network.comps.loc[cp].o: the outgoing connections of a component,
sorted by source port id. -/
def compOutConns (conns : List ConnF) (label : String) : List ℕ :=
  sortByKey (fun i => ((conns[i]?).map (fun c => c.s_id)).getD "")
    ((List.range conns.length).filter
      (fun i => ((conns[i]?).map (fun c => c.s == label)).getD false))

/-- network.comps.loc[cp].i: the incoming connections of a component,
sorted by target port id. -/
def compInConns (conns : List ConnF) (label : String) : List ℕ :=
  sortByKey (fun i => ((conns[i]?).map (fun c => c.t_id)).getD "")
    ((List.range conns.length).filter
      (fun i => ((conns[i]?).map (fun c => c.t == label)).getD false))

/-- init_target (networks.py lines 651-702), with explicit recursion
fuel: propagate the composition of the connection at cIdx towards its
target.  Pass through one-inlet/one-outlet components, heat exchangers
and subsystem interfaces to the outlet connection of the matching port
id; fork to every outlet of a splitter, the first two outlets of a
cogeneration unit, and every outlet of a drum that is not the start
component (recording the drum as the new start, which stops cycles). -/
def init_target (comps : List PComp) : ℕ → List ConnF → ℕ → String → List ConnF
  | 0, conns, _, _ => conns
  | fuel + 1, conns, cIdx, start =>
    match conns[cIdx]? with
    | none => conns
    | some c =>
      match findComp comps c.t with
      | none => conns
      | some tc =>
        let conns1 := if traverse_one tc then
            match outConnOf conns c.t c.t_id with
            | some o => init_target comps fuel (copy_fluids conns cIdx o) o start
            | none => conns
          else conns
        let conns2 := if tc.kind == CompKind.splitter then
            (compOutConns conns1 c.t).foldl (fun s o =>
              init_target comps fuel (copy_fluids s cIdx o) o start) conns1
          else conns1
        let conns3 := if tc.kind == CompKind.cogeneration_unit then
            ((compOutConns conns2 c.t).take 2).foldl (fun s o =>
              init_target comps fuel (copy_fluids s cIdx o) o start) conns2
          else conns2
        if tc.kind == CompKind.drum && !(c.t == start) then
          (compOutConns conns3 c.t).foldl (fun s o =>
            init_target comps fuel (copy_fluids s cIdx o) o c.t) conns3
        else conns3

/-- init_source (networks.py lines 704-764), the mirror of init_target
towards sources: pass through one-inlet/one-outlet components, heat
exchangers and subsystem interfaces; fork to the inlets of splitters
and merges, the first two inlets of a cogeneration unit, and the
inlets of a drum that is not the start component. -/
def init_source (comps : List PComp) : ℕ → List ConnF → ℕ → String → List ConnF
  | 0, conns, _, _ => conns
  | fuel + 1, conns, cIdx, start =>
    match conns[cIdx]? with
    | none => conns
    | some c =>
      match findComp comps c.s with
      | none => conns
      | some sc =>
        let conns1 := if traverse_one sc then
            match inConnOf conns c.s c.s_id with
            | some i => init_source comps fuel (copy_fluids conns cIdx i) i start
            | none => conns
          else conns
        let conns2 := if sc.kind == CompKind.splitter then
            (compInConns conns1 c.s).foldl (fun st i =>
              init_source comps fuel (copy_fluids st cIdx i) i start) conns1
          else conns1
        let conns3 := if sc.kind == CompKind.merge then
            (compInConns conns2 c.s).foldl (fun st i =>
              init_source comps fuel (copy_fluids st cIdx i) i start) conns2
          else conns2
        let conns4 := if sc.kind == CompKind.cogeneration_unit then
            ((compInConns conns3 c.s).take 2).foldl (fun st i =>
              init_source comps fuel (copy_fluids st cIdx i) i start) conns3
          else conns3
        if sc.kind == CompKind.drum && !(c.s == start) then
          (compInConns conns4 c.s).foldl (fun st i =>
            init_source comps fuel (copy_fluids st cIdx i) i c.s) conns4
        else conns4

/-- The fraction a connection currently assigns to a fluid. -/
def fracAt (conns : List ConnF) (i : ℕ) (fl : String) : Option ℚ :=
  match conns[i]? with
  | some c => aget c.val fl
  | none => none

/-- Components of the concrete heat-exchanger network: two feeds, the
heat exchanger, two sinks. -/
def hxComps : List PComp :=
  [⟨"A", CompKind.source, 0, 1⟩, ⟨"C", CompKind.source, 0, 1⟩,
   ⟨"HX", CompKind.heat_exchanger, 2, 2⟩,
   ⟨"B", CompKind.sink, 1, 0⟩, ⟨"D", CompKind.sink, 1, 0⟩]

/-- Connections of the concrete heat-exchanger network: A→HX.in1 with
water fixed to 1, HX.out1→B, C→HX.in2, HX.out2→D, all others at 0 and
free. -/
def hxConns : List ConnF :=
  [⟨"A", "out1", "HX", "in1", [("water", 1)], [("water", 1)], [("water", true)]⟩,
   ⟨"HX", "out1", "B", "in1", [("water", 0)], [("water", 0)], [("water", false)]⟩,
   ⟨"C", "out1", "HX", "in2", [("water", 0)], [("water", 0)], [("water", false)]⟩,
   ⟨"HX", "out2", "D", "in1", [("water", 0)], [("water", 0)], [("water", false)]⟩]

/-- The heat-exchanger network for backward propagation: the
composition is known on HX.out1→B and free everywhere else. -/
def hxConnsB : List ConnF :=
  [⟨"A", "out1", "HX", "in1", [("water", 0)], [("water", 0)], [("water", false)]⟩,
   ⟨"HX", "out1", "B", "in1", [("water", 1)], [("water", 1)], [("water", true)]⟩,
   ⟨"C", "out1", "HX", "in2", [("water", 0)], [("water", 0)], [("water", false)]⟩,
   ⟨"HX", "out2", "D", "in1", [("water", 0)], [("water", 0)], [("water", false)]⟩]

/-- C3 (counterexample): connection 0 targets the heat exchanger HX,
yet forward propagation DOES continue through it — the downstream
connection HX.out1→B, initially at fraction 0, holds fraction 1 after
init_target — because heat_exchanger is part of the pass-through guard
(line 664). -/
theorem hx_traversal_claim_false :
    ((hxConns[0]?).map (fun c => c.t)) = some "HX" ∧
    ((findComp hxComps "HX").map (fun c => c.kind)) =
      some CompKind.heat_exchanger ∧
    fracAt hxConns 1 "water" = some 0 ∧
    fracAt (init_target hxComps 100 hxConns 0 "HX") 1 "water" = some 1 := by
  refine ⟨by decide, by decide, by decide, by decide⟩

/-- C3 (amended): the pass-through guard of init_target / init_source
holds for every heat exchanger, so propagation does traverse it — but
only within one side: it continues to the outlet whose port id is the
inlet id with in replaced by out (out_k for in_k).  In the concrete
network, forward propagation from A→HX.in1 fills HX.out1→B and leaves
the other side (C→HX.in2 and HX.out2→D) untouched; backward
propagation from HX.out1→B fills A→HX.in1 and likewise leaves the
other side untouched. -/
theorem hx_traversal_same_side :
    (∀ cp : PComp, cp.kind = CompKind.heat_exchanger →
      traverse_one cp = true) ∧
    (∀ (conns : List ConnF) (t tid : String) (o : ℕ),
      outConnOf conns t tid = some o →
      ∃ cc, conns[o]? = some cc ∧ cc.s = t ∧
        cc.s_id = replaceStr tid "in" "out") ∧
    (fracAt (init_target hxComps 100 hxConns 0 "HX") 1 "water" = some 1 ∧
      fracAt (init_target hxComps 100 hxConns 0 "HX") 2 "water" = some 0 ∧
      fracAt (init_target hxComps 100 hxConns 0 "HX") 3 "water" = some 0) ∧
    (fracAt (init_source hxComps 100 hxConnsB 1 "HX") 0 "water" = some 1 ∧
      fracAt (init_source hxComps 100 hxConnsB 1 "HX") 2 "water" = some 0 ∧
      fracAt (init_source hxComps 100 hxConnsB 1 "HX") 3 "water" = some 0) := by
  refine ⟨?_, ?_, ⟨by decide, by decide, by decide⟩,
    ⟨by decide, by decide, by decide⟩⟩
  · intro cp hk
    simp [traverse_one, hk]
  · intro conns t tid o hfind
    rw [outConnOf, List.findIdx?_eq_some_iff_getElem] at hfind
    obtain ⟨hlt, hp, _⟩ := hfind
    refine ⟨conns[o], by simp [List.getElem?_eq_getElem hlt], ?_, ?_⟩
    · have := (Bool.and_eq_true _ _).mp hp
      exact eq_of_beq this.1
    · have := (Bool.and_eq_true _ _).mp hp
      exact eq_of_beq this.2

/-- C3 (witness for the amended theorem): the heat exchanger of the
concrete network satisfies the pass-through guard. -/
theorem hx_traversal_same_side_witness :
    traverse_one ⟨"HX", CompKind.heat_exchanger, 2, 2⟩ = true :=
  hx_traversal_same_side.1 ⟨"HX", CompKind.heat_exchanger, 2, 2⟩ rfl

/-- The multi-fluid branch of the dictionary rebuild of init_fluids
(networks.py lines 606-630): per fluid, carry over a user-set entry;
otherwise take a starting value entry from val0, unless the fluid is
marked set (then nothing is written); otherwise write 0. -/
def initFluidsConnMulti (fluids : List String) (tmp tmp0 : List (String × ℚ))
    (tmpset : List (String × Bool)) :
    List (String × ℚ) × List (String × ℚ) × List (String × Bool) :=
  fluids.foldl (fun acc f =>
    match aget tmp f, aget tmpset f with
    | some x, some b =>
      (acc.1 ++ [(f, x)], acc.2.1 ++ [(f, x)], acc.2.2 ++ [(f, b)])
    | _, _ =>
      match aget tmp0 f with
      | some x0 =>
        match aget tmpset f with
        | some b =>
          if b then acc
          else (acc.1 ++ [(f, x0)], acc.2.1 ++ [(f, x0)], acc.2.2 ++ [(f, false)])
        | none =>
          (acc.1 ++ [(f, x0)], acc.2.1 ++ [(f, x0)], acc.2.2 ++ [(f, false)])
      | none =>
        (acc.1 ++ [(f, 0)], acc.2.1 ++ [(f, 0)], acc.2.2 ++ [(f, false)]))
    ([], [], [])

/-- The per-connection dictionary rebuild of init_fluids (networks.py
lines 585-630): with exactly one network fluid the composition is set
to 1 outright (lines 594-604); otherwise the dictionaries are rebuilt
fluid by fluid. -/
def initFluidsConn (fluids : List String) (c : ConnF) : ConnF :=
  match fluids with
  | [f] =>
    { c with val := [(f, 1)], val0 := [(f, 1)],
             val_set := [(f, (aget c.val_set f).getD false)] }
  | _ =>
    let r := initFluidsConnMulti fluids c.val c.val0 c.val_set
    { c with val := r.1, val0 := r.2.1, val_set := r.2.2 }

/-- The target component label of the connection at an index. -/
def tLabelAt (cs : List ConnF) (i : ℕ) : String :=
  ((cs[i]?).map (fun c => c.t)).getD ""

/-- The source component label of the connection at an index. -/
def sLabelAt (cs : List ConnF) (i : ℕ) : String :=
  ((cs[i]?).map (fun c => c.s)).getD ""

/-- any(c.fluid.val_set.values()) for the connection at an index. -/
def anyValSet (cs : List ConnF) (i : ℕ) : Bool :=
  ((cs[i]?).map (fun c => c.val_set.any (fun e => e.2))).getD false

/-- init_fluids (networks.py lines 567-649): rebuild every
connection's dictionaries; with exactly one network fluid return right
there (lines 632-634); otherwise seed combustion chambers through
their initialise_fluids hook and propagate from their outlets, then
propagate forward and backward from every connection with a user-set
fraction, then run the initialise_fluids hook of every connection's
source and target component.  The external per-component
initialise_fluids methods are the argument hook. -/
def init_fluids (nw : NetF) (hook : String → List ConnF → List ConnF)
    (fuel : ℕ) : List ConnF :=
  let conns1 := nw.conns.map (initFluidsConn nw.fluids)
  if nw.fluids.length = 1 then conns1
  else
    let conns2 := nw.comps.foldl (fun cs cp =>
      if cp.kind = CompKind.combustion_chamber then
        let cs1 := hook cp.label cs
        (compOutConns cs1 cp.label).foldl (fun s o =>
          init_target nw.comps fuel s o (tLabelAt s o)) cs1
      else cs) conns1
    let conns3 := (List.range conns2.length).foldl (fun cs i =>
      if anyValSet cs i then
        init_source nw.comps fuel
          (init_target nw.comps fuel cs i (tLabelAt cs i)) i (sLabelAt cs i)
      else cs) conns2
    (List.range conns3.length).foldl (fun cs i =>
      hook (tLabelAt cs i) (hook (sLabelAt cs i) cs)) conns3

/-- C9: with exactly one declared fluid, init_fluids stops after the
dictionary rebuild — its result is the plain per-connection map,
independent of the component hooks and of the propagation fuel — and
every connection's composition assigns fraction 1 (value and starting
value) to that fluid. -/
theorem init_fluids_single (nw : NetF)
    (hook hook' : String → List ConnF → List ConnF) (fuel fuel' : ℕ)
    (f : String) (hf : nw.fluids = [f]) :
    init_fluids nw hook fuel = nw.conns.map (initFluidsConn nw.fluids) ∧
    init_fluids nw hook fuel = init_fluids nw hook' fuel' ∧
    ∀ c ∈ init_fluids nw hook fuel,
      aget c.val f = some 1 ∧ aget c.val0 f = some 1 := by
  have hlen : nw.fluids.length = 1 := by rw [hf]; rfl
  have h1 : init_fluids nw hook fuel =
      nw.conns.map (initFluidsConn nw.fluids) := by
    simp [init_fluids, hlen]
  have h1' : init_fluids nw hook' fuel' =
      nw.conns.map (initFluidsConn nw.fluids) := by
    simp [init_fluids, hlen]
  refine ⟨h1, h1.trans h1'.symm, ?_⟩
  intro c hc
  rw [h1] at hc
  obtain ⟨x, _, rfl⟩ := List.mem_map.mp hc
  rw [hf]
  constructor
  · show aget [(f, 1)] f = some 1
    simp [aget, List.find?]
  · show aget [(f, 1)] f = some 1
    simp [aget, List.find?]

/-- A one-fluid network with a single connection. -/
def netSingle : NetF :=
  ⟨[⟨"A", CompKind.source, 0, 1⟩, ⟨"B", CompKind.sink, 1, 0⟩],
   [⟨"A", "out1", "B", "in1", [], [], []⟩], ["water"]⟩

/-- C9 (witness): on the one-fluid network, init_fluids equals the
hook-free dictionary rebuild. -/
theorem init_fluids_single_witness :
    init_fluids netSingle (fun _ cs => cs) 5 =
      netSingle.conns.map (initFluidsConn netSingle.fluids) :=
  (init_fluids_single netSingle (fun _ cs => cs) (fun _ cs => cs) 5 7
    "water" rfl).1

end Tespy
